import Mathlib

/-!
# Verification of the AI-Bookmarks batch organization pipeline

A shallow embedding of `src/services/gemini.ts` (and the settings guards of
`src/services/storage.ts`): the chunking loop, the retry/fallback controller
`processChunkWithRetry`, the response post-processing `parseResponse` (with a
concrete JSON reader standing in for the runtime's `JSON.parse`), and the
batch orchestrator `organizeBookmarksBatch`.

JavaScript strings are modelled as Lean `String`s operated on through
character lists (so every definition evaluates inside the kernel); JS string
methods used by the source (`trim`, `startsWith`, `toLowerCase`, substring
search, slicing) are given char-list implementations, faithful on the ASCII
inputs the pipeline deals in.  Network calls and the mutable settings store
are oracles passed in as functions; cooperative time (one unit per awaited
dispatch or sleep) indexes the cancellation signal and the settings reads.
-/

namespace AIBookmarks

/-! ## JS string primitives (char-list based, kernel-computable) -/

/-- JS whitespace relevant here (ASCII subset of the `String.prototype.trim`
set). -/
def jsWs (c : Char) : Bool :=
  c == ' ' || c == '\t' || c == '\n' || c == '\r' || c == '\x0b' || c == '\x0c'

/-- `String.prototype.trim`. -/
def jsTrim (s : String) : String :=
  String.mk (((s.toList.dropWhile jsWs).reverse.dropWhile jsWs).reverse)

/-- `String.prototype.startsWith`. -/
def jsStartsWith (s pat : String) : Bool :=
  pat.toList.isPrefixOf s.toList

/-- `String.prototype.endsWith`. -/
def jsEndsWith (s pat : String) : Bool :=
  pat.toList.isSuffixOf s.toList

/-- Drop the first `n` characters (used for `replace(/^```json/, '')` after a
`startsWith` test has succeeded). -/
def jsDrop (s : String) (n : Nat) : String :=
  String.mk (s.toList.drop n)

/-- Drop the last `n` characters (used for `replace(/```$/, '')` after an
`endsWith` test has succeeded). -/
def jsDropRight (s : String) (n : Nat) : String :=
  String.mk (s.toList.take (s.toList.length - n))

/-- ASCII `String.prototype.toLowerCase`. -/
def lowerChar (c : Char) : Char :=
  if 'A' ≤ c ∧ c ≤ 'Z' then Char.ofNat (c.toNat + 32) else c

/-- ASCII `String.prototype.toLowerCase`. -/
def jsLower (s : String) : String :=
  String.mk (s.toList.map lowerChar)

/-- Substring search on char lists (the `errorMessage.includes(...)` tests). -/
def listInfix (pat : List Char) : List Char → Bool
  | [] => pat.isEmpty
  | c :: rest => pat.isPrefixOf (c :: rest) || listInfix pat rest

/-- `String.prototype.includes` (substring containment). -/
def strContains (s pat : String) : Bool :=
  listInfix pat.toList s.toList

/-! ## JS numbers, providers, settings

`batchSize` and `delayBetweenBatches` travel through JS falsiness guards
(`!settings.batchSize`, `settings.batchSize || 1`), so they are modelled as
a JS number that is either `NaN` or an integer. -/

inductive JSNum where
  | nan
  | int (n : Int)
deriving DecidableEq, Repr

/-- JS falsiness of a number: `NaN` and `0` are falsy. -/
def jsNumFalsy : JSNum → Bool
  | .nan => true
  | .int n => n == 0

/-- `v || 1` on a JS number (the guard in `organizeBookmarksBatch`). -/
def jsOrOne (v : JSNum) : JSNum :=
  if jsNumFalsy v then .int 1 else v

/-- `v || d` on a JS number (the `delayBetweenBatches || 5000` guard). -/
def jsOrDefault (v : JSNum) (d : Int) : JSNum :=
  if jsNumFalsy v then .int d else v

/-- Coerce a (non-negative, post-guard) JS number to the `Nat` used as a
slice width / millisecond count. -/
def jsNumToNat : JSNum → Nat
  | .nan => 0
  | .int n => n.toNat

/-- `AIProvider` from `src/types.ts`. -/
inductive Provider where
  | openrouter
  | gemini
  | ollama
deriving DecidableEq, Repr

/-- `AISettings` from `src/types.ts` (the fields the pipeline reads). -/
structure AISettings where
  provider : Provider
  openRouterApiKey : String
  openRouterModel : String
  geminiApiKey : String
  geminiModel : String
  ollamaBaseUrl : String
  ollamaModel : String
  ollamaApiKey : String
  batchSize : JSNum
  delayBetweenBatches : JSNum
deriving Repr

/-- The `{id, title, url}` work item fed to `organizeBookmarksBatch`. -/
structure WorkItem where
  id : String
  title : String
  url : String
deriving DecidableEq, Repr

/-! ## Chunking (`organizeBookmarksBatch`, lines 121–124)

```
const chunks = [];
for (let i = 0; i < bookmarks.length; i += batchSize) {
  chunks.push(bookmarks.slice(i, i + batchSize));
}
```

The loop is embedded with explicit fuel: one unit per iteration, so that
termination of the source loop is itself a provable statement
(`chunkLoopFuel` is independent of any fuel ≥ the input length when the
step `k` is positive). -/

/-- One fuel unit per iteration of the chunking `for` loop;
`l.take k :: … (l.drop k)` is `bookmarks.slice(i, i + batchSize)` with the
already-consumed items dropped. -/
def chunkLoopFuel (k : Nat) : Nat → List α → List (List α)
  | _, [] => []
  | 0, _ :: _ => []
  | fuel + 1, x :: xs => (x :: xs).take k :: chunkLoopFuel k fuel ((x :: xs).drop k)

/-- The chunk list built by `organizeBookmarksBatch`: the loop runs to
completion within `l.length` iterations whenever `k ≥ 1`. -/
def chunksOf (k : Nat) (l : List α) : List (List α) :=
  chunkLoopFuel k l.length l

/-- Three sample work items, shared by the concrete witnesses below. -/
def sampleItems3 : List WorkItem :=
  [⟨"b1", "t1", "u1"⟩, ⟨"b2", "t2", "u2"⟩, ⟨"b3", "t3", "u3"⟩]

/-- One sample work item, shared by the concrete witnesses below. -/
def sampleItems1 : List WorkItem := [⟨"b1", "t1", "u1"⟩]

/-! ## The stored `batchSize` guards (`getAISettings`, storage.ts line 137,
and `organizeBookmarksBatch` line 118) -/

/-- `getAISettings`'s numeric restoration for `batchSize`
(`if (!settings.batchSize) settings.batchSize = DEFAULT_AI_SETTINGS.batchSize`,
where the stored field may be absent after the merge and the default is `1`). -/
def getAISettingsBatchSize (stored : Option JSNum) : JSNum :=
  match stored with
  | none => .int 1
  | some v => if jsNumFalsy v then .int 1 else v

/-! ## JSON values

`JSON.parse` produces JS values; the subset reachable from JSON text is
`null`, booleans, numbers, strings, arrays and objects.  Arrays and objects
are separate mutual inductives (rather than `List` fields) so that every
function below is plain structural recursion, which the kernel evaluates.
JSON numbers are modelled as integers; fractional or exponent literals are
treated as unparseable by the modelled reader (no claim exercises them). -/

mutual
inductive Json where
  | null
  | bool (b : Bool)
  | num (n : Int)
  | str (s : String)
  | arr (items : JsonArr)
  | obj (fields : JsonObj)
deriving Repr

inductive JsonArr where
  | nil
  | cons (hd : Json) (tl : JsonArr)
deriving Repr

inductive JsonObj where
  | nil
  | cons (key : String) (val : Json) (tl : JsonObj)
deriving Repr
end

def JsonArr.toList : JsonArr → List Json
  | .nil => []
  | .cons hd tl => hd :: tl.toList

def jsonArrOfList : List Json → JsonArr
  | [] => .nil
  | j :: rest => .cons j (jsonArrOfList rest)

/-- JS property read `o.key` on an object (first binding wins; the reader
below never produces duplicate keys). -/
def objLookup : JsonObj → String → Option Json
  | .nil, _ => none
  | .cons k v tl, key => if k = key then some v else objLookup tl key

/-- JS property write with object-literal semantics: an existing key keeps
its position and gets the new value, a fresh key is appended. -/
def setField : JsonObj → String → Json → JsonObj
  | .nil, k, v => .cons k v .nil
  | .cons k' v' tl, k, v =>
    if k' = k then .cons k v tl else .cons k' v' (setField tl k v)

/-- JS falsiness of a JSON value (`undefined` is represented by a missing
lookup, never by a `Json`). -/
def jsFalsy : Json → Bool
  | .null => true
  | .bool b => !b
  | .num n => n == 0
  | .str s => s == ""
  | .arr _ => false
  | .obj _ => false

mutual
/-- JS `String(v)` for the values reachable here: arrays join their
elements with commas (`null` elements print as the empty string), objects
print as `[object Object]`. -/
def jsToString : Json → String
  | .null => "null"
  | .bool true => "true"
  | .bool false => "false"
  | .num n => toString n
  | .str s => s
  | .arr l => jsArrToString l
  | .obj _ => "[object Object]"

def jsArrToString : JsonArr → String
  | .nil => ""
  | .cons hd tl =>
    (match hd with
      | .null => ""
      | h => jsToString h) ++
    (match tl with
      | .nil => ""
      | t => "," ++ jsArrToString t)
end

/-! ## The modelled `JSON.parse`

A recursive-descent reader over the character list, with explicit fuel
(two units per character suffice; the top level hands it `2·n + 2`).
It accepts exactly the JSON grammar restricted to integer numerals. -/

def isJsonWsChar (c : Char) : Bool :=
  c == ' ' || c == '\t' || c == '\n' || c == '\r'

def skipWs : List Char → List Char
  | [] => []
  | c :: rest => if isJsonWsChar c then skipWs rest else c :: rest

def hexVal (c : Char) : Option Nat :=
  if '0' ≤ c ∧ c ≤ '9' then some (c.toNat - '0'.toNat)
  else if 'a' ≤ c ∧ c ≤ 'f' then some (c.toNat - 'a'.toNat + 10)
  else if 'A' ≤ c ∧ c ≤ 'F' then some (c.toNat - 'A'.toNat + 10)
  else none

/-- Read the body of a JSON string literal (the opening quote already
consumed), handling the escape sequences of the JSON grammar. -/
def readStringBody : List Char → Option (List Char × List Char)
  | [] => none
  | '"' :: rest => some ([], rest)
  | '\\' :: esc =>
    match esc with
    | '"' :: r => (readStringBody r).map (fun p => ('"' :: p.1, p.2))
    | '\\' :: r => (readStringBody r).map (fun p => ('\\' :: p.1, p.2))
    | '/' :: r => (readStringBody r).map (fun p => ('/' :: p.1, p.2))
    | 'b' :: r => (readStringBody r).map (fun p => ('\x08' :: p.1, p.2))
    | 'f' :: r => (readStringBody r).map (fun p => ('\x0c' :: p.1, p.2))
    | 'n' :: r => (readStringBody r).map (fun p => ('\n' :: p.1, p.2))
    | 'r' :: r => (readStringBody r).map (fun p => ('\x0d' :: p.1, p.2))
    | 't' :: r => (readStringBody r).map (fun p => ('\t' :: p.1, p.2))
    | 'u' :: a :: b :: c :: d :: r =>
      match hexVal a, hexVal b, hexVal c, hexVal d with
      | some ha, some hb, some hc, some hd =>
        (readStringBody r).map
          (fun p => (Char.ofNat (((ha * 16 + hb) * 16 + hc) * 16 + hd) :: p.1, p.2))
      | _, _, _, _ => none
    | _ => none
  | c :: rest =>
    if c.toNat < 32 then none
    else (readStringBody rest).map (fun p => (c :: p.1, p.2))

/-- Accumulate decimal digits. -/
def readDigits (acc : Nat) : List Char → Nat × List Char
  | [] => (acc, [])
  | c :: rest =>
    if c.isDigit then readDigits (acc * 10 + (c.toNat - '0'.toNat)) rest
    else (acc, c :: rest)

/-- Read a JSON integer numeral (optional minus, no leading zeros;
fraction or exponent parts make the modelled reader fail). -/
def readNum (cs : List Char) : Option (Int × List Char) :=
  let signed : Bool × List Char :=
    match cs with
    | '-' :: r => (true, r)
    | _ => (false, cs)
  match signed.2 with
  | [] => none
  | c :: rest =>
    if !c.isDigit then none
    else if c = '0' ∧ (match rest with | d :: _ => d.isDigit | [] => false) = true then none
    else
      let p := readDigits (c.toNat - '0'.toNat) rest
      match p.2 with
      | [] => some (if signed.1 then -(p.1 : Int) else (p.1 : Int), [])
      | d :: r2 =>
        if d = '.' ∨ d = 'e' ∨ d = 'E' then none
        else some (if signed.1 then -(p.1 : Int) else (p.1 : Int), d :: r2)

/-- JS object-literal key collation: later duplicate keys overwrite the
value in place (`JSON.parse` keeps the last value at the first position). -/
def collateFields (acc : JsonObj) : JsonObj → JsonObj
  | .nil => acc
  | .cons k v tl => collateFields (setField acc k v) tl

mutual
def readVal : Nat → List Char → Option (Json × List Char)
  | 0, _ => none
  | fuel + 1, cs =>
    match skipWs cs with
    | 'n' :: 'u' :: 'l' :: 'l' :: r => some (.null, r)
    | 't' :: 'r' :: 'u' :: 'e' :: r => some (.bool true, r)
    | 'f' :: 'a' :: 'l' :: 's' :: 'e' :: r => some (.bool false, r)
    | '"' :: r => (readStringBody r).map (fun p => (.str (String.mk p.1), p.2))
    | '[' :: r =>
      (match skipWs r with
        | ']' :: r2 => some (.arr .nil, r2)
        | r2 => (readElems fuel r2).map (fun p => (.arr p.1, p.2)))
    | '\x7b' :: r =>
      (match skipWs r with
        | '\x7d' :: r2 => some (.obj .nil, r2)
        | r2 => (readFields fuel r2).map (fun p => (.obj (collateFields .nil p.1), p.2)))
    | cs2 => (readNum cs2).map (fun p => (.num p.1, p.2))

def readElems : Nat → List Char → Option (JsonArr × List Char)
  | 0, _ => none
  | fuel + 1, cs =>
    match readVal fuel cs with
    | none => none
    | some (v, r) =>
      match skipWs r with
      | ',' :: r2 => (readElems fuel r2).map (fun p => (.cons v p.1, p.2))
      | ']' :: r2 => some (.cons v .nil, r2)
      | _ => none

def readFields : Nat → List Char → Option (JsonObj × List Char)
  | 0, _ => none
  | fuel + 1, cs =>
    match skipWs cs with
    | '"' :: r =>
      (match readStringBody r with
        | none => none
        | some (kcs, r2) =>
          match skipWs r2 with
          | ':' :: r3 =>
            (match readVal fuel r3 with
              | none => none
              | some (v, r4) =>
                match skipWs r4 with
                | ',' :: r5 => (readFields fuel r5).map
                    (fun p => (.cons (String.mk kcs) v p.1, p.2))
                | '\x7d' :: r5 => some (.cons (String.mk kcs) v .nil, r5)
                | _ => none)
          | _ => none)
    | _ => none
end

/-- The modelled `JSON.parse`: `none` stands for a thrown `SyntaxError`. -/
def jsonParse (s : String) : Option Json :=
  let cs := s.toList
  match readVal (2 * cs.length + 2) cs with
  | none => none
  | some (v, rest) => if (skipWs rest).isEmpty then some v else none

/-! ## `parseResponse` (gemini.ts lines 271–294)

```
const parseResponse = (jsonStr: string): any[] => {
    if (!jsonStr) return [];
    let cleanJson = jsonStr.trim();
    if (cleanJson.startsWith('```json')) {
        cleanJson = cleanJson.replace(/^```json/, '').replace(/```$/, '');
    } else if (cleanJson.startsWith('```')) {
        cleanJson = cleanJson.replace(/^```/, '').replace(/```$/, '');
    }
    try {
        const result = JSON.parse(cleanJson);
        const arrayResult = Array.isArray(result) ? result : (result.items || []);
        return arrayResult.map((item: any) => ({
            ...item,
            tags: Array.isArray(item.tags) ? [...new Set(item.tags.map((t: any) => String(t).toLowerCase()))] : []
        }));
    } catch (parseError) { return []; }
};
```

Every exception inside the `try` (the `JSON.parse` throw, the property read
on `null`, the `.map` call on a non-array) lands in the same `catch`, so
each such event is modelled as an `Option` failure that the final match
turns into `[]`. -/

/-- `replace(/```$/, '')`: drop one trailing fence if present. -/
def dropTrailingFence (s : String) : String :=
  if jsEndsWith s "```" then jsDropRight s 3 else s

/-- The fence-stripping conditional of `parseResponse` (applied to the
already-trimmed text). -/
def stripFence (s : String) : String :=
  if jsStartsWith s "```json" then dropTrailingFence (jsDrop s 7)
  else if jsStartsWith s "```" then dropTrailingFence (jsDrop s 3)
  else s

/-- `Array.isArray(result) ? result : (result.items || [])`, followed by the
`.map` dispatch: `none` models a thrown `TypeError` (property read on
`null`, or `.map` on a truthy non-array), which the `catch` turns into
`[]`. -/
def extractItems : Json → Option (List Json)
  | .arr l => some l.toList
  | .null => none
  | .obj fs =>
    (match objLookup fs "items" with
      | some (Json.arr l) => some l.toList
      | some v => if jsFalsy v then some [] else none
      | none => some [])
  | _ => some []

/-- `[...new Set(xs)]`: deduplication keeping the first occurrence. -/
def jsSetDedupAux : List String → List String → List String
  | [], _ => []
  | x :: xs, seen =>
    if x ∈ seen then jsSetDedupAux xs seen else x :: jsSetDedupAux xs (x :: seen)

/-- `[...new Set(xs)]`: deduplication keeping the first occurrence. -/
def jsSetDedup (l : List String) : List String := jsSetDedupAux l []

/-- Object spread `{...item}`: objects contribute their fields, strings and
arrays their index-keyed entries, other primitives nothing. -/
def charFields (i : Nat) : List Char → JsonObj
  | [] => .nil
  | c :: rest => .cons (toString i) (Json.str (String.mk [c])) (charFields (i + 1) rest)

/-- Object spread `{...item}` for array items: index-keyed entries. -/
def idxFields (i : Nat) : List Json → JsonObj
  | [] => .nil
  | v :: rest => .cons (toString i) v (idxFields (i + 1) rest)

/-- Object spread `{...item}`. -/
def spreadFields : Json → JsonObj
  | .obj fs => fs
  | .str s => charFields 0 s.toList
  | .arr l => idxFields 0 l.toList
  | _ => .nil

/-- `Array.isArray(item.tags) ? [...new Set(item.tags.map(t =>
String(t).toLowerCase()))] : []`. -/
def itemTags : Json → List String
  | .obj fs =>
    (match objLookup fs "tags" with
      | some (Json.arr ts) => jsSetDedup (ts.toList.map (fun t => jsLower (jsToString t)))
      | _ => [])
  | _ => []

def jsonArrOfStrings (l : List String) : JsonArr :=
  jsonArrOfList (l.map Json.str)

/-- The per-record post-processing `{...item, tags: ...}`; reading `.tags`
on a `null` item throws (`none`), which the `catch` turns into `[]`. -/
def postItem : Json → Option Json
  | .null => none
  | j => some (.obj (setField (spreadFields j) "tags" (.arr (jsonArrOfStrings (itemTags j)))))

/-- `arrayResult.map(...)`: the first thrown `TypeError` aborts the whole
`try` block. -/
def postItems : List Json → Option (List Json)
  | [] => some []
  | j :: rest =>
    match postItem j with
    | none => none
    | some r => (postItems rest).map (r :: ·)

/-- `parseResponse` itself: total — every failure path yields `[]`. -/
def parseResponse (jsonStr : String) : List Json :=
  if jsonStr = "" then []
  else
    let cleanJson := stripFence (jsTrim jsonStr)
    match jsonParse cleanJson with
    | none => []
    | some result =>
      match extractItems result with
      | none => []
      | some arrayResult =>
        match postItems arrayResult with
        | none => []
        | some out => out

/-! ## Error classification (gemini.ts lines 160–164, 187–204)

All tests run on the lowercased message, as in the source
(`errorMessage = (...).toLowerCase()`). -/

/-- The `isAuthError` test of `processChunkWithRetry`. -/
def isAuthMsg (m : String) : Bool :=
  strContains m "401" || strContains m "unauthorized" || strContains m "403" ||
    strContains m "forbidden" || strContains m "invalid api key" ||
    strContains m "invalid_api_key"

/-- The `isProviderError` test of `processChunkWithRetry`. -/
def isProviderMsg (m : String) : Bool :=
  strContains m "provider" || strContains m "502" || strContains m "503" ||
    strContains m "failed to fetch"

/-- The `isRateLimit` test of `processChunkWithRetry`. -/
def isRateLimitMsg (m : String) : Bool :=
  strContains m "429" || strContains m "resource_exhausted" || strContains m "quota"

/-- The orchestrator's stop test (gemini.ts lines 160–164): lowercases the
message and looks for the rate-limit/quota/auth markers.  Note the list
differs from `isAuthMsg`: `invalid_api_key` (underscores) is absent here. -/
def isCriticalErrMsg (msg : String) : Bool :=
  let s := jsLower msg
  strContains s "429" || strContains s "quota" || strContains s "resource_exhausted" ||
    strContains s "401" || strContains s "unauthorized" || strContains s "403" ||
    strContains s "forbidden" || strContains s "invalid api key"

/-! ## The retry/fallback controller (`processChunkWithRetry`, lines 175–236)

The network is an oracle: `attempt k` is what the `k`-th `processChunk`
dispatch for this chunk does (the source calls it with `retryCount = k`),
and `fbNet k` is the raw text (or throw) of the `callDirectGemini` network
call made while handling the `k`-th failure.  `settingsAt k` is the
`getAISettings()` read in the `k`-th failure handler.  The recursion is
bounded by `MAX_RETRIES`; an explicit structural fuel of
`MAX_RETRIES + 1 - retryCount` units makes it kernel-computable (the
zero-fuel branch is unreachable from the top-level entry). -/

/-- Outcome of one `processChunk` dispatch: parsed results, or a thrown
error with its message. -/
inductive AttemptResult where
  | ok (res : List Json)
  | err (msg : String)
deriving Repr

/-- A `callDirectGemini(apiKey, model, chunk)` invocation, as recorded in
the trace (the model is hardcoded to `'gemini-2.0-flash'` at the call
site). -/
structure FallbackCall where
  apiKey : String
  model : String
deriving DecidableEq, Repr

/-- Observable trace of one `processChunkWithRetry` call: the returned or
thrown result, the number of `processChunk` dispatch attempts, the
`callDirectGemini` invocations, and the backoff waits (ms, in order). -/
structure RetryTrace where
  result : Except String (List Json)
  attempts : Nat
  fallbacks : List FallbackCall
  waits : List Nat
deriving Repr

def MAX_RETRIES : Nat := 5

/-- The fallback trigger (line 208): active provider is OpenRouter, the
error looks like a provider outage or rate limit, and a Gemini key is
configured. -/
def fallbackWanted (s : AISettings) (m : String) : Prop :=
  s.provider = Provider.openrouter ∧ (isProviderMsg m || isRateLimitMsg m) = true ∧
    s.geminiApiKey ≠ ""

instance (s : AISettings) (m : String) : Decidable (fallbackWanted s m) := by
  unfold fallbackWanted; infer_instance

/-- The `callDirectGemini` invocations contributed by one failure handler. -/
def fallbackCallsOf (s : AISettings) (m : String) : List FallbackCall :=
  if fallbackWanted s m then [⟨s.geminiApiKey, "gemini-2.0-flash"⟩] else []

def retryGo (attempt : Nat → AttemptResult) (fbNet : Nat → Except String String)
    (settingsAt : Nat → AISettings) : Nat → Nat → RetryTrace
  | fuel, retryCount =>
    match attempt retryCount with
    | .ok res => ⟨.ok res, 1, [], []⟩
    | .err msg =>
      let m := jsLower msg
      if isAuthMsg m then ⟨.error msg, 1, [], []⟩
      else
        let settings := settingsAt retryCount
        let fbRes : Option (Except String String) :=
          if fallbackWanted settings m then some (fbNet retryCount) else none
        match fbRes with
        | some (.ok txt) =>
          ⟨.ok (parseResponse txt), 1, fallbackCallsOf settings m, []⟩
        | _ =>
          if retryCount < MAX_RETRIES then
            match fuel with
            | fuel' + 1 =>
              let waitTime :=
                if isRateLimitMsg m then 10000 + retryCount * 5000
                else 1000 * 2 ^ retryCount
              let rest := retryGo attempt fbNet settingsAt fuel' (retryCount + 1)
              ⟨rest.result, 1 + rest.attempts, fallbackCallsOf settings m ++ rest.fallbacks,
                waitTime :: rest.waits⟩
            | 0 => ⟨.error msg, 1, fallbackCallsOf settings m, []⟩
          else ⟨.error msg, 1, fallbackCallsOf settings m, []⟩

/-- `processChunkWithRetry(chunk, retryCount, signal)`, with the chunk and
network abstracted into the oracles. -/
def processChunkWithRetry (attempt : Nat → AttemptResult)
    (fbNet : Nat → Except String String) (settingsAt : Nat → AISettings)
    (retryCount : Nat) : RetryTrace :=
  retryGo attempt fbNet settingsAt (MAX_RETRIES + 1 - retryCount) retryCount

/-! ## The batch orchestrator (`organizeBookmarksBatch`, lines 110–172)

Cooperative time: each awaited step (a whole chunk dispatch including its
retries, or one inter-batch sleep) advances a virtual clock by the step's
duration, and the cancellation signal is `aborted` at every instant
`t ≥ abortAt` (`abortAt = none` means the signal never fires).  The
`getAISettings()` store is time-indexed: the orchestrator performs its own
read at time `0` (for `batchSize` and `delayBetweenBatches`), and hands
every chunk dispatch the value read fresh at that chunk's start time, as
`processChunk` does.  A chunk's processing is abstracted into a
`ProcResult` oracle (instantiated with the retry controller by
`procOfRetry`). -/

/-- What one `processChunkWithRetry` call looks like from the loop:
returned-or-thrown outcome, time units consumed, and number of
`processChunk` dispatch attempts made. -/
structure ProcResult where
  outcome : Except String (List Json)
  dur : Nat
  attempts : Nat
deriving Repr

/-- Observables of one `organizeBookmarksBatch` run: the returned
classifications, the inter-batch delays actually slept (ms), the number of
chunk dispatches and the total dispatch attempts. -/
structure OrgState where
  results : List Json
  delays : List Nat
  dispatches : Nat
  attempts : Nat
deriving Repr

/-- `signal?.aborted` at instant `t` for a signal fired at `abortAt`. -/
def jsAborted (abortAt : Option Nat) (t : Nat) : Bool :=
  match abortAt with
  | none => false
  | some a => decide (a ≤ t)

/-- The `for` loop of `organizeBookmarksBatch` (lines 130–169), one fuel
unit per remaining chunk: abort check at the loop top; on success append
the results and (before any non-final delay) re-check the signal; on error
break silently when aborted, break when the message is critical
(lines 160–167), otherwise log and continue with the next chunk. -/
def orgLoop (proc : Nat → Nat → ProcResult) (abortAt : Option Nat) (delayMs : Nat) :
    Nat → Nat → Nat → OrgState → OrgState
  | 0, _, _, st => st
  | rem + 1, i, t, st =>
    if jsAborted abortAt t then st
    else
      let r := proc i t
      let t2 := t + r.dur
      let st2 : OrgState := ⟨st.results, st.delays, st.dispatches + 1, st.attempts + r.attempts⟩
      match r.outcome with
      | .ok res =>
        let st3 : OrgState := ⟨st2.results ++ res, st2.delays, st2.dispatches, st2.attempts⟩
        if rem = 0 then st3
        else if jsAborted abortAt t2 then st3
        else orgLoop proc abortAt delayMs rem (i + 1) (t2 + 1)
          ⟨st3.results, st3.delays ++ [delayMs], st3.dispatches, st3.attempts⟩
      | .error m =>
        if jsAborted abortAt t2 || m == "Aborted by user" then st2
        else if isCriticalErrMsg m then st2
        else orgLoop proc abortAt delayMs rem (i + 1) t2 st2

/-- `organizeBookmarksBatch(bookmarks, existingCategories, signal)`: empty
input returns immediately; otherwise one settings read fixes `batchSize`
and the inter-batch delay, the input is chunked, and the loop drives the
per-chunk processor, which receives the settings read at its own start
time. -/
def organizeBookmarksBatch (settingsAt : Nat → AISettings)
    (proc : AISettings → Nat → Nat → ProcResult)
    (_existingCategories : List String) (abortAt : Option Nat)
    (bookmarks : List WorkItem) : OrgState :=
  if bookmarks.length = 0 then ⟨[], [], 0, 0⟩
  else
    let settings := settingsAt 0
    let batchSize := jsNumToNat (jsOrOne settings.batchSize)
    let delayMs := jsNumToNat (jsOrDefault settings.delayBetweenBatches 5000)
    let chunks := chunksOf batchSize bookmarks
    orgLoop (fun i t => proc (settingsAt t) i t) abortAt delayMs chunks.length 0 0 ⟨[], [], 0, 0⟩

/-- Instantiate the per-chunk processor with the retry controller:
`attempt i k` / `fbNet i k` are chunk `i`'s network oracles, the settings
handed over by the loop are the ones every `getAISettings()` read during
this chunk observes, and each attempt or backoff wait costs one time
unit. -/
def procOfRetry (attempt : Nat → Nat → AttemptResult)
    (fbNet : Nat → Nat → Except String String) :
    AISettings → Nat → Nat → ProcResult :=
  fun s i _t =>
    let tr := processChunkWithRetry (attempt i) (fbNet i) (fun _ => s) 0
    ⟨tr.result, tr.attempts + tr.waits.length, tr.attempts⟩

/-- Modelled from the spec: claim C9 asserts that *all* settings — batch
size and inter-batch delay included — are re-read freshly at the start of
every chunk dispatch.  This variant does exactly that: each iteration
re-reads the store, recomputes the chunk width from the fresh `batchSize`
and the delay from the fresh `delayBetweenBatches`, and takes the next
chunk accordingly.  It is compared against the source-faithful
`organizeBookmarksBatch` above. -/
def organizeFreshLoop (settingsAt : Nat → AISettings)
    (proc : AISettings → Nat → Nat → ProcResult) (abortAt : Option Nat) :
    Nat → List WorkItem → Nat → Nat → OrgState → OrgState
  | 0, _, _, _, st => st
  | _, [], _, _, st => st
  | fuel + 1, x :: rest, i, t, st =>
    if jsAborted abortAt t then st
    else
      let s := settingsAt t
      let k := jsNumToNat (jsOrOne s.batchSize)
      let dm := jsNumToNat (jsOrDefault s.delayBetweenBatches 5000)
      let r := proc s i t
      let t2 := t + r.dur
      let st2 : OrgState := ⟨st.results, st.delays, st.dispatches + 1, st.attempts + r.attempts⟩
      match r.outcome with
      | .ok res =>
        let st3 : OrgState := ⟨st2.results ++ res, st2.delays, st2.dispatches, st2.attempts⟩
        if ((x :: rest).drop k).isEmpty then st3
        else if jsAborted abortAt t2 then st3
        else organizeFreshLoop settingsAt proc abortAt fuel ((x :: rest).drop k) (i + 1) (t2 + 1)
          ⟨st3.results, st3.delays ++ [dm], st3.dispatches, st3.attempts⟩
      | .error m =>
        if jsAborted abortAt t2 || m == "Aborted by user" then st2
        else if isCriticalErrMsg m then st2
        else organizeFreshLoop settingsAt proc abortAt fuel ((x :: rest).drop k) (i + 1) t2 st2

/-- Modelled from the spec (see `organizeFreshLoop`). -/
def organizeFreshBatch (settingsAt : Nat → AISettings)
    (proc : AISettings → Nat → Nat → ProcResult) (abortAt : Option Nat)
    (bookmarks : List WorkItem) : OrgState :=
  if bookmarks.length = 0 then ⟨[], [], 0, 0⟩
  else organizeFreshLoop settingsAt proc abortAt bookmarks.length bookmarks 0 0 ⟨[], [], 0, 0⟩

/-- Per-chunk processor used by `organize_stop_policy_witness`: every chunk
fails with a rate-limited message. -/
def procRateLimited : Nat → Nat → ProcResult :=
  fun _ _ => ⟨.error "429 too many requests", 1, 1⟩

/-! ## Shared concrete instances for witnesses and counterexamples -/

/-- Gemini-provider settings with batch size 1 and a 5 ms delay. -/
def sampleSettingsG : AISettings := ⟨.gemini, "", "", "gk", "", "", "", "", .int 1, .int 5⟩

/-- Ollama-provider settings (used to observe a mid-run provider switch). -/
def sampleSettingsOllama : AISettings :=
  ⟨.ollama, "", "", "", "", "", "llama3", "", .int 1, .int 5⟩

/-- Gemini-provider settings with batch size 2. -/
def sampleSettingsB2 : AISettings := ⟨.gemini, "", "", "gk", "", "", "", "", .int 2, .int 5⟩

def sampleItems2 : List WorkItem := [⟨"b1", "t1", "u1"⟩, ⟨"b2", "t2", "u2"⟩]

def sampleItems4 : List WorkItem :=
  [⟨"b1", "t1", "u1"⟩, ⟨"b2", "t2", "u2"⟩, ⟨"b3", "t3", "u3"⟩, ⟨"b4", "t4", "u4"⟩]

def providerName : Provider → String
  | .openrouter => "openrouter"
  | .gemini => "gemini"
  | .ollama => "ollama"

/-- A chunk processor that always succeeds with one fixed record. -/
def procOkR1 : AISettings → Nat → Nat → ProcResult :=
  fun _ _ _ => ⟨.ok [Json.str "r1"], 1, 1⟩

/-- A settings-blind chunk processor that always succeeds with no records. -/
def procConstOk : Nat → Nat → ProcResult := fun _ _ => ⟨.ok [], 1, 1⟩

/-- A chunk processor that records which provider its fresh settings read
named, to make the per-chunk settings re-read observable. -/
def procRecordProvider : AISettings → Nat → Nat → ProcResult :=
  fun s _ _ => ⟨.ok [Json.str (providerName s.provider)], 1, 1⟩

/-! ## Theorems

Helper lemmas first within each group, then the claim theorems with their
witnesses and counterexamples. -/

theorem chunkLoopFuel_join {k : Nat} (hk : 1 ≤ k) :
    ∀ (fuel : Nat) (l : List α), l.length ≤ fuel →
      (chunkLoopFuel k fuel l).flatten = l := by
  intro fuel
  induction fuel with
  | zero =>
    intro l hl
    have : l = [] := List.length_eq_zero.mp (Nat.le_zero.mp hl)
    subst this; rfl
  | succ f ih =>
    intro l hl
    cases l with
    | nil => rfl
    | cons x xs =>
      have hdrop : ((x :: xs).drop k).length ≤ f := by
        rw [List.length_drop]
        simp only [List.length_cons] at hl ⊢
        omega
      simp only [chunkLoopFuel, List.flatten_cons, ih _ hdrop,
        List.take_append_drop]

theorem chunkLoopFuel_length_le {k : Nat} :
    ∀ (fuel : Nat) (l : List α), ∀ c ∈ chunkLoopFuel k fuel l, c.length ≤ k := by
  intro fuel
  induction fuel with
  | zero =>
    intro l c hc
    cases l with
    | nil => simp [chunkLoopFuel] at hc
    | cons x xs => simp [chunkLoopFuel] at hc
  | succ f ih =>
    intro l c hc
    cases l with
    | nil => simp [chunkLoopFuel] at hc
    | cons x xs =>
      simp only [chunkLoopFuel, List.mem_cons] at hc
      rcases hc with h | h
      · subst h
        exact List.length_take_le k (x :: xs)
      · exact ih _ c h

theorem chunkLoopFuel_ne_nil {k : Nat} (hk : 1 ≤ k) :
    ∀ (fuel : Nat) (l : List α), ∀ c ∈ chunkLoopFuel k fuel l, c ≠ [] := by
  intro fuel
  induction fuel with
  | zero =>
    intro l c hc
    cases l with
    | nil => simp [chunkLoopFuel] at hc
    | cons x xs => simp [chunkLoopFuel] at hc
  | succ f ih =>
    intro l c hc
    cases l with
    | nil => simp [chunkLoopFuel] at hc
    | cons x xs =>
      simp only [chunkLoopFuel, List.mem_cons] at hc
      rcases hc with h | h
      · subst h
        obtain ⟨k', rfl⟩ := Nat.exists_eq_add_of_le hk
        simp [List.take]
      · exact ih _ c h

theorem chunkLoopFuel_fuel_irrel {k : Nat} (hk : 1 ≤ k) :
    ∀ (fuel fuel' : Nat) (l : List α), l.length ≤ fuel → l.length ≤ fuel' →
      chunkLoopFuel k fuel l = chunkLoopFuel k fuel' l := by
  intro fuel
  induction fuel with
  | zero =>
    intro fuel' l hl _
    have : l = [] := List.length_eq_zero.mp (Nat.le_zero.mp hl)
    subst this
    cases fuel' <;> rfl
  | succ f ih =>
    intro fuel' l hl hl'
    cases l with
    | nil => cases fuel' <;> rfl
    | cons x xs =>
      cases fuel' with
      | zero => simp at hl'
      | succ f' =>
        have hd : ((x :: xs).drop k).length ≤ f := by
          rw [List.length_drop]; simp only [List.length_cons] at hl ⊢; omega
        have hd' : ((x :: xs).drop k).length ≤ f' := by
          rw [List.length_drop]; simp only [List.length_cons] at hl' ⊢; omega
        simp only [chunkLoopFuel]
        rw [ih f' _ hd hd']

/-- Claim C2: for every batch size ≥ 1, the chunking step of
`organizeBookmarksBatch` partitions the input into contiguous,
order-preserving chunks of length ≤ `batchSize` whose in-order
concatenation is exactly the original list (so every item is covered
exactly once and chunks cannot overlap). -/
theorem chunking_partition (k : Nat) (l : List WorkItem) (hk : 1 ≤ k)
    (_hne : l ≠ []) :
    (chunksOf k l).flatten = l ∧ ∀ c ∈ chunksOf k l, c.length ≤ k :=
  ⟨chunkLoopFuel_join hk l.length l le_rfl,
   fun c hc => chunkLoopFuel_length_le l.length l c hc⟩

theorem chunking_partition_witness :
    (1 ≤ 2 ∧ sampleItems3 ≠ []) ∧
      ((chunksOf 2 sampleItems3).flatten = sampleItems3 ∧
        ∀ c ∈ chunksOf 2 sampleItems3, c.length ≤ 2) :=
  ⟨⟨by decide, by decide⟩,
   chunking_partition 2 sampleItems3 (by decide) (by decide)⟩

/-- Claim C10: for a stored `batchSize` that is missing, zero, `NaN`, or a
positive integer, the effective batch size after `getAISettings`'s default
restoration and the orchestrator's `|| 1` guard is an integer ≥ 1, the
chunking loop terminates within `l.length` iterations (any larger fuel
computes the same chunk list), and every chunk is non-empty. -/
theorem chunk_loop_termination (stored : Option JSNum) (l : List WorkItem)
    (hscope : stored = none ∨ stored = some (.int 0) ∨ stored = some .nan ∨
      ∃ n : Int, 1 ≤ n ∧ stored = some (.int n)) :
    1 ≤ jsNumToNat (jsOrOne (getAISettingsBatchSize stored)) ∧
      (∀ fuel, l.length ≤ fuel →
        chunkLoopFuel (jsNumToNat (jsOrOne (getAISettingsBatchSize stored))) fuel l =
          chunksOf (jsNumToNat (jsOrOne (getAISettingsBatchSize stored))) l) ∧
      ∀ c ∈ chunksOf (jsNumToNat (jsOrOne (getAISettingsBatchSize stored))) l, c ≠ [] := by
  have heff : 1 ≤ jsNumToNat (jsOrOne (getAISettingsBatchSize stored)) := by
    rcases hscope with rfl | rfl | rfl | ⟨n, hn, rfl⟩
    · decide
    · decide
    · decide
    · simp only [getAISettingsBatchSize, jsNumFalsy, jsOrOne]
      have hne : (n == 0) = false := by
        simp only [beq_eq_false_iff_ne, ne_eq]; omega
      simp only [hne, if_false, Bool.false_eq_true, jsNumToNat]
      omega
  refine ⟨heff, fun fuel hfuel => ?_, ?_⟩
  · exact chunkLoopFuel_fuel_irrel heff fuel l.length l hfuel le_rfl
  · exact chunkLoopFuel_ne_nil heff l.length l

theorem chunk_loop_termination_witness :
    (some JSNum.nan = none ∨ some JSNum.nan = some (.int 0) ∨
        some JSNum.nan = some JSNum.nan ∨
        ∃ n : Int, 1 ≤ n ∧ some JSNum.nan = some (.int n)) ∧
      (1 ≤ jsNumToNat (jsOrOne (getAISettingsBatchSize (some JSNum.nan))) ∧
        (∀ fuel, sampleItems1.length ≤ fuel →
          chunkLoopFuel (jsNumToNat (jsOrOne (getAISettingsBatchSize (some JSNum.nan)))) fuel
              sampleItems1 =
            chunksOf (jsNumToNat (jsOrOne (getAISettingsBatchSize (some JSNum.nan))))
              sampleItems1) ∧
        ∀ c ∈ chunksOf (jsNumToNat (jsOrOne (getAISettingsBatchSize (some JSNum.nan))))
            sampleItems1, c ≠ []) :=
  ⟨Or.inr (Or.inr (Or.inl rfl)),
   chunk_loop_termination (some JSNum.nan) sampleItems1
     (Or.inr (Or.inr (Or.inl rfl)))⟩

theorem mem_jsSetDedupAux :
    ∀ (l seen : List String) (x : String),
      x ∈ jsSetDedupAux l seen ↔ x ∈ l ∧ x ∉ seen := by
  intro l
  induction l with
  | nil => intro seen x; simp [jsSetDedupAux]
  | cons a l' ih =>
    intro seen x
    by_cases ha : a ∈ seen
    · simp only [jsSetDedupAux, if_pos ha, ih, List.mem_cons]
      constructor
      · rintro ⟨hx, hs⟩; exact ⟨Or.inr hx, hs⟩
      · rintro ⟨hx | hx, hs⟩
        · subst hx; exact absurd ha hs
        · exact ⟨hx, hs⟩
    · simp only [jsSetDedupAux, if_neg ha, List.mem_cons, ih]
      constructor
      · rintro (rfl | ⟨hx, hs⟩)
        · exact ⟨Or.inl rfl, ha⟩
        · simp only [List.mem_cons, not_or] at hs
          exact ⟨Or.inr hx, hs.2⟩
      · rintro ⟨rfl | hx, hs⟩
        · exact Or.inl rfl
        · by_cases hxa : x = a
          · exact Or.inl hxa
          · exact Or.inr ⟨hx, by simp [hxa, hs]⟩

theorem nodup_jsSetDedupAux :
    ∀ (l seen : List String), (jsSetDedupAux l seen).Nodup := by
  intro l
  induction l with
  | nil => intro seen; simp [jsSetDedupAux]
  | cons a l' ih =>
    intro seen
    by_cases ha : a ∈ seen
    · simpa [jsSetDedupAux, if_pos ha] using ih seen
    · simp only [jsSetDedupAux, if_neg ha, List.nodup_cons]
      refine ⟨fun hmem => ?_, ih (a :: seen)⟩
      exact ((mem_jsSetDedupAux l' (a :: seen) a).mp hmem).2 (List.mem_cons_self a seen)

/-- Claim C7: `parseResponse` post-processes every record so that an
array-valued `tags` field becomes its stringified, lowercased,
first-occurrence-deduplicated form (and `jsSetDedup` really deduplicates:
no duplicates remain and exactly the original elements survive), a missing
or non-array `tags` field becomes the empty array, and on the fenced
example from the spec — with the `json` language tag or with a bare
fence — the fence is stripped and the tags come out as `["a", "b"]`. -/
theorem parse_postprocess :
    (∀ fs ts, objLookup fs "tags" = some (Json.arr ts) →
      postItem (Json.obj fs) =
        some (.obj (setField fs "tags" (.arr (jsonArrOfStrings
          (jsSetDedup (ts.toList.map (fun t => jsLower (jsToString t))))))))) ∧
    (∀ l : List String, (jsSetDedup l).Nodup ∧ ∀ x, x ∈ jsSetDedup l ↔ x ∈ l) ∧
    (∀ fs, (∀ ts, objLookup fs "tags" ≠ some (Json.arr ts)) →
      postItem (Json.obj fs) = some (.obj (setField fs "tags" (.arr .nil)))) ∧
    parseResponse "```json\n[\x7b\"id\":\"a\",\"category\":\"X\",\"tags\":[\"A\",\"a\",\"B\"]\x7d]\n```" =
      [Json.obj (.cons "id" (.str "a") (.cons "category" (.str "X")
        (.cons "tags" (.arr (.cons (.str "a") (.cons (.str "b") .nil))) .nil)))] ∧
    parseResponse "```\n[\x7b\"id\":\"a\",\"category\":\"X\",\"tags\":[\"A\",\"a\",\"B\"]\x7d]\n```" =
      [Json.obj (.cons "id" (.str "a") (.cons "category" (.str "X")
        (.cons "tags" (.arr (.cons (.str "a") (.cons (.str "b") .nil))) .nil)))] := by
  refine ⟨?_, ?_, ?_, rfl, rfl⟩
  · intro fs ts h
    simp [postItem, spreadFields, itemTags, h]
  · intro l
    refine ⟨nodup_jsSetDedupAux l [], fun x => ?_⟩
    simpa [jsSetDedup] using mem_jsSetDedupAux l [] x
  · intro fs h
    have htags : itemTags (Json.obj fs) = [] := by
      cases hl : objLookup fs "tags" with
      | none => simp [itemTags, hl]
      | some v =>
        cases v with
        | arr ts => exact absurd hl (h ts)
        | null => simp [itemTags, hl]
        | bool b => simp [itemTags, hl]
        | num n => simp [itemTags, hl]
        | str s => simp [itemTags, hl]
        | obj o => simp [itemTags, hl]
    simp [postItem, spreadFields, htags, jsonArrOfStrings, jsonArrOfList]

theorem parse_postprocess_witness :
    (objLookup (.cons "tags" (.arr (.cons (.str "A") .nil)) .nil) "tags" =
        some (Json.arr (.cons (.str "A") .nil)) ∧
      postItem (Json.obj (.cons "tags" (.arr (.cons (.str "A") .nil)) .nil)) =
        some (.obj (setField (.cons "tags" (.arr (.cons (.str "A") .nil)) .nil) "tags"
          (.arr (jsonArrOfStrings (jsSetDedup
            ((JsonArr.cons (.str "A") .nil).toList.map
              (fun t => jsLower (jsToString t))))))))) ∧
      postItem (Json.obj (.cons "id" (.str "z") .nil)) =
        some (.obj (setField (.cons "id" (.str "z") .nil) "tags" (.arr .nil))) :=
  ⟨⟨rfl, parse_postprocess.1 (.cons "tags" (.arr (.cons (.str "A") .nil)) .nil)
      (.cons (.str "A") .nil) rfl⟩,
   parse_postprocess.2.2.1 (.cons "id" (.str "z") .nil)
     (fun ts h => by simp [objLookup] at h)⟩

/-- Claim C8: `parseResponse` is total (a Lean function into `List Json`,
with every exception path of the source mapped into `[]`): empty input
yields `[]`, a `JSON.parse` failure yields `[]`, and a parse result that is
neither a bare array nor an object with an array-valued `items` property
yields `[]`. -/
theorem parse_total :
    parseResponse "" = [] ∧
    (∀ s, s ≠ "" → jsonParse (stripFence (jsTrim s)) = none → parseResponse s = []) ∧
    (∀ s v, s ≠ "" → jsonParse (stripFence (jsTrim s)) = some v →
      (∀ l, v ≠ Json.arr l) →
      (∀ fs, v = Json.obj fs → ∀ l, objLookup fs "items" ≠ some (Json.arr l)) →
      parseResponse s = []) := by
  refine ⟨rfl, ?_, ?_⟩
  · intro s hs h
    simp [parseResponse, hs, h]
  · intro s v hs hv harr hobj
    cases v with
    | arr l => exact absurd rfl (harr l)
    | null => simp [parseResponse, hs, hv, extractItems]
    | bool b => simp [parseResponse, hs, hv, extractItems, postItems]
    | num n => simp [parseResponse, hs, hv, extractItems, postItems]
    | str s' => simp [parseResponse, hs, hv, extractItems, postItems]
    | obj fs =>
      simp only [parseResponse, if_neg hs, hv, extractItems]
      cases hl : objLookup fs "items" with
      | none => simp [postItems]
      | some w =>
        cases w with
        | arr l => exact absurd hl (hobj fs rfl l)
        | null => simp [jsFalsy, postItems]
        | bool b =>
          cases b with
          | false => simp [jsFalsy, postItems]
          | true => simp [jsFalsy]
        | num n =>
          by_cases hn : n = 0
          · simp [jsFalsy, hn, postItems]
          · simp [jsFalsy, hn]
        | str s2 =>
          by_cases h2 : s2 = ""
          · simp [jsFalsy, h2, postItems]
          · simp [jsFalsy, h2]
        | obj o => simp [jsFalsy]

theorem parse_total_witness :
    (jsonParse (stripFence (jsTrim "not json")) = none ∧
      parseResponse "not json" = []) ∧
    (jsonParse (stripFence (jsTrim "42")) = some (Json.num 42) ∧
      parseResponse "42" = []) :=
  ⟨⟨rfl, parse_total.2.1 "not json" (by decide) rfl⟩,
   ⟨rfl, parse_total.2.2 "42" (Json.num 42) (by decide) rfl
      (fun l h => by cases h) (fun fs h => by cases h)⟩⟩

/-- One failure-handler step, all-failing case: the next attempt errs, the
error is not auth-class, the fallback (if invoked) does not return, so the
handler either recurses after one backoff wait or gives up past
`MAX_RETRIES`. -/
theorem retryGo_err_step (attempt : Nat → AttemptResult)
    (fbNet : Nat → Except String String) (settingsAt : Nat → AISettings)
    (fuel rc : Nat) (msg : String)
    (hatt : attempt rc = .err msg)
    (hauth : isAuthMsg (jsLower msg) = false)
    (hfbne : ∀ txt, fbNet rc ≠ .ok txt) :
    retryGo attempt fbNet settingsAt (fuel + 1) rc =
      if rc < MAX_RETRIES then
        ⟨(retryGo attempt fbNet settingsAt fuel (rc + 1)).result,
          1 + (retryGo attempt fbNet settingsAt fuel (rc + 1)).attempts,
          fallbackCallsOf (settingsAt rc) (jsLower msg) ++
            (retryGo attempt fbNet settingsAt fuel (rc + 1)).fallbacks,
          (if isRateLimitMsg (jsLower msg) then 10000 + rc * 5000
            else 1000 * 2 ^ rc) ::
            (retryGo attempt fbNet settingsAt fuel (rc + 1)).waits⟩
      else ⟨.error msg, 1, fallbackCallsOf (settingsAt rc) (jsLower msg), []⟩ := by
  rw [retryGo]
  simp only [hatt, hauth, Bool.false_eq_true, if_false]
  by_cases hw : fallbackWanted (settingsAt rc) (jsLower msg)
  · simp only [if_pos hw]
    cases hfb : fbNet rc with
    | ok txt => exact absurd hfb (hfbne txt)
    | error e => rfl
  · simp only [if_neg hw]

/-- All attempts fail with the same non-auth message and the fallback never
returns: with `d` retries remaining (`rc + d = MAX_RETRIES`), the handler
makes `d + 1` attempts, waits the scheduled backoffs, and rethrows. -/
theorem retryGo_exhaust (attempt : Nat → AttemptResult)
    (fbNet : Nat → Except String String) (settingsAt : Nat → AISettings)
    (msg : String)
    (hauth : isAuthMsg (jsLower msg) = false)
    (hatt : ∀ k, attempt k = .err msg)
    (hfbne : ∀ k txt, fbNet k ≠ .ok txt) :
    ∀ d rc, rc + d = MAX_RETRIES →
      (retryGo attempt fbNet settingsAt (d + 1) rc).result = .error msg ∧
      (retryGo attempt fbNet settingsAt (d + 1) rc).attempts = d + 1 ∧
      (retryGo attempt fbNet settingsAt (d + 1) rc).waits =
        (List.range d).map (fun j =>
          if isRateLimitMsg (jsLower msg) then 10000 + (rc + j) * 5000
          else 1000 * 2 ^ (rc + j)) := by
  intro d
  induction d with
  | zero =>
    intro rc hrc
    have hlt : ¬ rc < MAX_RETRIES := by omega
    rw [retryGo_err_step attempt fbNet settingsAt 0 rc msg (hatt rc) hauth (hfbne rc)]
    simp [hlt]
  | succ d ih =>
    intro rc hrc
    have hlt : rc < MAX_RETRIES := by omega
    obtain ⟨hres, hatts, hwaits⟩ := ih (rc + 1) (by omega)
    rw [retryGo_err_step attempt fbNet settingsAt (d + 1) rc msg (hatt rc) hauth (hfbne rc)]
    refine ⟨by simp [hlt, hres], by simp only [if_pos hlt, hatts]; omega, ?_⟩
    simp only [if_pos hlt, hwaits, List.range_succ_eq_map, List.map_cons, List.map_map]
    refine congrArg₂ _ (by simp) ?_
    refine List.map_congr_left (fun j _ => ?_)
    simp only [Function.comp_apply]
    have : rc + 1 + j = rc + (j + 1) := by omega
    rw [this]

/-- Claim C3: a chunk whose dispatches keep failing with a retryable
(non-auth) error, and whose fallback (if triggered) also fails, is retried
up to `MAX_RETRIES = 5` times with the scheduled waits — `1000·2^k` ms
generically, `10000 + k·5000` ms for detected rate limits — and once the
maximum is exceeded the last error is rethrown. -/
theorem retry_backoff_schedule (attempt : Nat → AttemptResult)
    (fbNet : Nat → Except String String) (settingsAt : Nat → AISettings)
    (msg : String)
    (hauth : isAuthMsg (jsLower msg) = false)
    (hatt : ∀ k, attempt k = .err msg)
    (hfbne : ∀ k txt, fbNet k ≠ .ok txt) :
    (processChunkWithRetry attempt fbNet settingsAt 0).result = .error msg ∧
    (processChunkWithRetry attempt fbNet settingsAt 0).attempts = MAX_RETRIES + 1 ∧
    (processChunkWithRetry attempt fbNet settingsAt 0).waits =
      (List.range MAX_RETRIES).map (fun k =>
        if isRateLimitMsg (jsLower msg) then 10000 + k * 5000
        else 1000 * 2 ^ k) := by
  obtain ⟨hres, hatts, hwaits⟩ :=
    retryGo_exhaust attempt fbNet settingsAt msg hauth hatt hfbne MAX_RETRIES 0 (by omega)
  refine ⟨hres, hatts, ?_⟩
  rw [processChunkWithRetry]
  simp only [Nat.sub_zero] at hwaits ⊢
  rw [hwaits]
  exact List.map_congr_left (fun j _ => by simp)

theorem retry_backoff_schedule_witness :
    isAuthMsg (jsLower "boom") = false ∧
    (processChunkWithRetry (fun _ => .err "boom") (fun _ => .error "down")
        (fun _ => ⟨.gemini, "", "", "", "", "", "", "", .int 1, .int 5000⟩) 0).attempts =
      MAX_RETRIES + 1 :=
  ⟨by decide,
   (retry_backoff_schedule (fun _ => .err "boom") (fun _ => .error "down")
      (fun _ => ⟨.gemini, "", "", "", "", "", "", "", .int 1, .int 5000⟩) "boom"
      (by decide) (fun _ => rfl) (fun _ txt h => by cases h)).2.1⟩

/-- Claim C4: when the active provider is OpenRouter, the failure looks
like a provider outage or rate limit, and a Gemini key is configured, the
handler makes exactly one direct Gemini call with the fixed fallback model
`gemini-2.0-flash`; a successful call returns its parsed results for the
chunk, a failed call is swallowed and normal retry logic proceeds. -/
theorem fallback_single_call (attempt : Nat → AttemptResult)
    (fbNet : Nat → Except String String) (settingsAt : Nat → AISettings)
    (rc : Nat) (msg : String)
    (hrc : rc ≤ MAX_RETRIES)
    (hatt : attempt rc = .err msg)
    (hauth : isAuthMsg (jsLower msg) = false)
    (hprov : (settingsAt rc).provider = Provider.openrouter)
    (hkind : (isProviderMsg (jsLower msg) || isRateLimitMsg (jsLower msg)) = true)
    (hkey : (settingsAt rc).geminiApiKey ≠ "") :
    (∀ txt, fbNet rc = .ok txt →
      processChunkWithRetry attempt fbNet settingsAt rc =
        ⟨.ok (parseResponse txt), 1,
          [⟨(settingsAt rc).geminiApiKey, "gemini-2.0-flash"⟩], []⟩) ∧
    (∀ e, fbNet rc = .error e → rc < MAX_RETRIES →
      processChunkWithRetry attempt fbNet settingsAt rc =
        ⟨(processChunkWithRetry attempt fbNet settingsAt (rc + 1)).result,
          1 + (processChunkWithRetry attempt fbNet settingsAt (rc + 1)).attempts,
          ⟨(settingsAt rc).geminiApiKey, "gemini-2.0-flash"⟩ ::
            (processChunkWithRetry attempt fbNet settingsAt (rc + 1)).fallbacks,
          (if isRateLimitMsg (jsLower msg) then 10000 + rc * 5000
            else 1000 * 2 ^ rc) ::
            (processChunkWithRetry attempt fbNet settingsAt (rc + 1)).waits⟩) := by
  have hw : fallbackWanted (settingsAt rc) (jsLower msg) := ⟨hprov, hkind, hkey⟩
  have hfuel : MAX_RETRIES + 1 - rc = (MAX_RETRIES - rc) + 1 := by omega
  constructor
  · intro txt hfb
    rw [processChunkWithRetry, hfuel, retryGo]
    simp only [hatt, hauth, Bool.false_eq_true, if_false, if_pos hw, hfb,
      fallbackCallsOf]
  · intro e hfb hlt
    have hfuel2 : MAX_RETRIES + 1 - (rc + 1) = MAX_RETRIES - rc := by omega
    rw [processChunkWithRetry, processChunkWithRetry, hfuel, hfuel2, retryGo]
    simp only [hatt, hauth, Bool.false_eq_true, if_false, if_pos hw, hfb,
      if_pos hlt, fallbackCallsOf]
    all_goals simp [hw]

theorem fallback_single_call_witness :
    ((0 : Nat) ≤ MAX_RETRIES ∧ isAuthMsg (jsLower "502 bad gateway") = false ∧
      (isProviderMsg (jsLower "502 bad gateway") ||
        isRateLimitMsg (jsLower "502 bad gateway")) = true) ∧
    processChunkWithRetry (fun _ => .err "502 bad gateway") (fun _ => .ok "[]")
        (fun _ => ⟨.openrouter, "ok", "m", "gk", "", "", "", "", .int 1, .int 5000⟩) 0 =
      ⟨.ok (parseResponse "[]"), 1, [⟨"gk", "gemini-2.0-flash"⟩], []⟩ :=
  ⟨⟨by decide, by decide, by decide⟩,
   (fallback_single_call (fun _ => .err "502 bad gateway") (fun _ => .ok "[]")
      (fun _ => ⟨.openrouter, "ok", "m", "gk", "", "", "", "", .int 1, .int 5000⟩) 0
      "502 bad gateway" (by decide) rfl (by decide) rfl (by decide)
      (by decide)).1 "[]" rfl⟩

/-! ## Orchestrator loop lemmas -/

/-- A chunk failure whose message is in the critical list stops the loop:
the accumulated results are returned as they stand. -/
theorem orgLoop_err_stop (proc : Nat → Nat → ProcResult) (delayMs rem i t : Nat)
    (st : OrgState) (m : String)
    (hm : (proc i t).outcome = .error m)
    (hnab : m ≠ "Aborted by user")
    (hcrit : isCriticalErrMsg m = true) :
    orgLoop proc none delayMs (rem + 1) i t st =
      ⟨st.results, st.delays, st.dispatches + 1, st.attempts + (proc i t).attempts⟩ := by
  have hb : (m == "Aborted by user") = false := beq_eq_false_iff_ne.mpr hnab
  simp only [orgLoop, jsAborted, Bool.false_eq_true, if_false, hm, hb,
    Bool.or_false, hcrit, if_true]

/-- A chunk failure whose message is not critical (and not the abort
marker) lets the loop continue with the next chunk, results unchanged. -/
theorem orgLoop_err_continue (proc : Nat → Nat → ProcResult) (delayMs rem i t : Nat)
    (st : OrgState) (m : String)
    (hm : (proc i t).outcome = .error m)
    (hnab : m ≠ "Aborted by user")
    (hcrit : isCriticalErrMsg m = false) :
    orgLoop proc none delayMs (rem + 1) i t st =
      orgLoop proc none delayMs rem (i + 1) (t + (proc i t).dur)
        ⟨st.results, st.delays, st.dispatches + 1, st.attempts + (proc i t).attempts⟩ := by
  have hb : (m == "Aborted by user") = false := beq_eq_false_iff_ne.mpr hnab
  simp only [orgLoop, jsAborted, Bool.false_eq_true, if_false, hm, hb,
    Bool.or_false, hcrit]

/-- One successful chunk: results are appended; the loop then returns (last
chunk), returns early (signal fired before the sleep), or sleeps and
continues. -/
theorem orgLoop_ok_step (proc : Nat → Nat → ProcResult) (abortAt : Option Nat)
    (delayMs rem i t : Nat) (st : OrgState) (res : List Json)
    (hab : jsAborted abortAt t = false)
    (hok : (proc i t).outcome = .ok res) :
    orgLoop proc abortAt delayMs (rem + 1) i t st =
      if rem = 0 then
        ⟨st.results ++ res, st.delays, st.dispatches + 1,
          st.attempts + (proc i t).attempts⟩
      else if jsAborted abortAt (t + (proc i t).dur) then
        ⟨st.results ++ res, st.delays, st.dispatches + 1,
          st.attempts + (proc i t).attempts⟩
      else
        orgLoop proc abortAt delayMs rem (i + 1) (t + (proc i t).dur + 1)
          ⟨st.results ++ res, st.delays ++ [delayMs], st.dispatches + 1,
            st.attempts + (proc i t).attempts⟩ := by
  simp only [orgLoop, hab, Bool.false_eq_true, if_false, hok]

/-- A signal already fired at the loop top returns the accumulated state
unchanged — no further dispatch happens. -/
theorem orgLoop_abort_stop (proc : Nat → Nat → ProcResult) (a delayMs rem i t : Nat)
    (st : OrgState) (ha : a ≤ t) :
    orgLoop proc (some a) delayMs rem i t st = st := by
  cases rem with
  | zero => rfl
  | succ rem' =>
    simp only [orgLoop, jsAborted, decide_eq_true_eq, if_pos ha]

/-- A non-empty input always produces at least one chunk. -/
theorem chunksOf_cons_length (k : Nat) (x : WorkItem) (xs : List WorkItem) :
    ∃ m, (chunksOf k (x :: xs)).length = m + 1 :=
  ⟨(chunkLoopFuel k xs.length ((x :: xs).drop k)).length,
    by simp [chunksOf, chunkLoopFuel]⟩

theorem organizeBookmarksBatch_cons (settingsAt : Nat → AISettings)
    (proc : AISettings → Nat → Nat → ProcResult) (cats : List String)
    (abortAt : Option Nat) (x : WorkItem) (xs : List WorkItem) :
    organizeBookmarksBatch settingsAt proc cats abortAt (x :: xs) =
      orgLoop (fun i t => proc (settingsAt t) i t) abortAt
        (jsNumToNat (jsOrDefault (settingsAt 0).delayBetweenBatches 5000))
        (chunksOf (jsNumToNat (jsOrOne (settingsAt 0).batchSize)) (x :: xs)).length
        0 0 ⟨[], [], 0, 0⟩ := by
  simp [organizeBookmarksBatch]

/-- Claim C1 (amended): `organizeBookmarksBatch` never throws (it is a
total function into `OrgState`) and swallows every chunk failure; it stops
processing further chunks exactly when the failure's lowercased message
contains one of the critical markers (`429`/`quota`/`resource_exhausted`/
`401`/`unauthorized`/`403`/`forbidden`/`invalid api key`), returning what
was aggregated so far; a failure with any other message is logged and the
loop continues with the next chunk. -/
theorem organize_stop_policy (proc : Nat → Nat → ProcResult) (delayMs rem i t : Nat)
    (st : OrgState) (m : String)
    (hm : (proc i t).outcome = .error m)
    (hnab : m ≠ "Aborted by user") :
    (isCriticalErrMsg m = true →
      orgLoop proc none delayMs (rem + 1) i t st =
        ⟨st.results, st.delays, st.dispatches + 1, st.attempts + (proc i t).attempts⟩) ∧
    (isCriticalErrMsg m = false →
      orgLoop proc none delayMs (rem + 1) i t st =
        orgLoop proc none delayMs rem (i + 1) (t + (proc i t).dur)
          ⟨st.results, st.delays, st.dispatches + 1, st.attempts + (proc i t).attempts⟩) :=
  ⟨fun hcrit => orgLoop_err_stop proc delayMs rem i t st m hm hnab hcrit,
   fun hcrit => orgLoop_err_continue proc delayMs rem i t st m hm hnab hcrit⟩

theorem organize_stop_policy_witness :
    ((procRateLimited 0 0).outcome = .error "429 too many requests" ∧
      "429 too many requests" ≠ "Aborted by user" ∧
      isCriticalErrMsg "429 too many requests" = true) ∧
    orgLoop procRateLimited none 5 2 0 0 ⟨[], [], 0, 0⟩ = ⟨[], [], 1, 1⟩ :=
  ⟨⟨rfl, by decide, by decide⟩,
   (organize_stop_policy procRateLimited 5 1 0 0 ⟨[], [], 0, 0⟩
      "429 too many requests" rfl (by decide)).1 (by decide)⟩

/-- Counterexample to claim C1 as stated: chunk 1 fails with a generic
error (`"boom"`) after exhausting all retries, yet the orchestrator does
not stop — chunk 2 is still dispatched (2 dispatches) and its
classifications are returned, instead of exactly the (empty) aggregate
from before the failure. -/
theorem organize_continues_after_generic_failure :
    (organizeBookmarksBatch
        (fun _ => ⟨.gemini, "", "", "gk", "", "", "", "", .int 1, .int 5⟩)
        (procOfRetry (fun i _ => if i = 0 then .err "boom" else .ok [Json.str "c2"])
          (fun _ _ => .error "down"))
        [] none [⟨"b1", "t1", "u1"⟩, ⟨"b2", "t2", "u2"⟩]).results = [Json.str "c2"] ∧
    (organizeBookmarksBatch
        (fun _ => ⟨.gemini, "", "", "gk", "", "", "", "", .int 1, .int 5⟩)
        (procOfRetry (fun i _ => if i = 0 then .err "boom" else .ok [Json.str "c2"])
          (fun _ _ => .error "down"))
        [] none [⟨"b1", "t1", "u1"⟩, ⟨"b2", "t2", "u2"⟩]).dispatches = 2 :=
  ⟨rfl, rfl⟩

/-- Auth-class failures are rethrown by the controller with zero retries,
zero fallback calls and zero waits, at any retry depth. -/
theorem retry_auth_rethrow (attempt : Nat → AttemptResult)
    (fbNet : Nat → Except String String) (settingsAt : Nat → AISettings)
    (rc : Nat) (msg : String)
    (hatt : attempt rc = .err msg)
    (hauth : isAuthMsg (jsLower msg) = true) :
    processChunkWithRetry attempt fbNet settingsAt rc = ⟨.error msg, 1, [], []⟩ := by
  rw [processChunkWithRetry, retryGo]
  simp only [hatt, hauth, if_true]

/-- Claim C5 (amended): an authentication/authorization failure makes the
controller rethrow immediately with zero retries; the orchestrator then
stops after that single dispatch attempt whenever the message is also in
its critical list (`isCriticalErrMsg`) — which holds for the
`401/unauthorized/403/forbidden/invalid api key` family, but not for the
underscore spelling `invalid_api_key` (see the counterexample). -/
theorem auth_error_no_retry (msg : String) (hauth : isAuthMsg (jsLower msg) = true) :
    (∀ (attempt : Nat → AttemptResult) (fbNet : Nat → Except String String)
        (settingsAt : Nat → AISettings) (rc : Nat),
      attempt rc = .err msg →
      processChunkWithRetry attempt fbNet settingsAt rc = ⟨.error msg, 1, [], []⟩) ∧
    (isCriticalErrMsg msg = true →
      ∀ (settingsAt : Nat → AISettings) (fbNet : Nat → Nat → Except String String)
        (cats : List String) (x : WorkItem) (xs : List WorkItem),
      organizeBookmarksBatch settingsAt
          (procOfRetry (fun _ _ => .err msg) fbNet) cats none (x :: xs) =
        ⟨[], [], 1, 1⟩) := by
  constructor
  · intro attempt fbNet settingsAt rc hatt
    exact retry_auth_rethrow attempt fbNet settingsAt rc msg hatt hauth
  · intro hcrit settingsAt fbNet cats x xs
    rw [organizeBookmarksBatch_cons]
    obtain ⟨m, hm⟩ := chunksOf_cons_length
      (jsNumToNat (jsOrOne (settingsAt 0).batchSize)) x xs
    rw [hm]
    have htr := retry_auth_rethrow (fun _ => .err msg) (fbNet 0)
      (fun _ => settingsAt 0) 0 msg rfl hauth
    have hp : procOfRetry (fun _ _ => .err msg) fbNet (settingsAt 0) 0 0 =
        ⟨.error msg, 1, 1⟩ := by
      simp [procOfRetry, htr]
    have hne : msg ≠ "Aborted by user" := by
      intro h
      rw [h] at hauth
      revert hauth
      decide
    rw [orgLoop_err_stop _ _ m 0 0 _ msg (by simp [hp]) hne hcrit]
    simp [hp]

theorem auth_error_no_retry_witness :
    (isAuthMsg (jsLower "401 unauthorized") = true ∧
      isCriticalErrMsg "401 unauthorized" = true) ∧
    processChunkWithRetry (fun _ => .err "401 unauthorized") (fun _ => .error "down")
        (fun _ => sampleSettingsG) 0 = ⟨.error "401 unauthorized", 1, [], []⟩ ∧
    organizeBookmarksBatch (fun _ => sampleSettingsG)
        (procOfRetry (fun _ _ => .err "401 unauthorized") (fun _ _ => .error "down"))
        [] none sampleItems2 = ⟨[], [], 1, 1⟩ :=
  ⟨⟨by decide, by decide⟩,
   (auth_error_no_retry "401 unauthorized" (by decide)).1 _ _ _ 0 rfl,
   (auth_error_no_retry "401 unauthorized" (by decide)).2 (by decide) _ _ []
     ⟨"b1", "t1", "u1"⟩ [⟨"b2", "t2", "u2"⟩]⟩

/-- Counterexample to claim C5 as stated: an error whose message is
exactly `invalid_api_key` is auth-class for the controller (rethrown after
a single attempt per chunk), yet the orchestrator's critical list only
knows the spaced spelling, so with two chunks `organize` makes **two**
dispatch attempts — not exactly one — before returning the empty result. -/
theorem auth_underscore_key_two_attempts :
    isAuthMsg (jsLower "invalid_api_key") = true ∧
    isCriticalErrMsg "invalid_api_key" = false ∧
    (organizeBookmarksBatch (fun _ => sampleSettingsG)
        (procOfRetry (fun _ _ => .err "invalid_api_key") (fun _ _ => .error "down"))
        [] none sampleItems2).attempts = 2 ∧
    (organizeBookmarksBatch (fun _ => sampleSettingsG)
        (procOfRetry (fun _ _ => .err "invalid_api_key") (fun _ _ => .error "down"))
        [] none sampleItems2).dispatches = 2 ∧
    (organizeBookmarksBatch (fun _ => sampleSettingsG)
        (procOfRetry (fun _ _ => .err "invalid_api_key") (fun _ _ => .error "down"))
        [] none sampleItems2).results = [] :=
  ⟨by decide, by decide, rfl, rfl, rfl⟩

/-- Claim C6: a signal that is already set at a loop top returns the
accumulated results with no further dispatch; cancelling before the first
chunk yields the empty result with zero dispatches; and a cancellation
arriving during the inter-batch sleep after chunk 1 (of ≥ 2 chunks) yields
exactly chunk 1's classifications, one dispatch, one (interrupted)
delay. -/
theorem cancellation_behavior :
    (∀ (proc : Nat → Nat → ProcResult) (a delayMs rem i t : Nat) (st : OrgState),
      a ≤ t → orgLoop proc (some a) delayMs rem i t st = st) ∧
    (∀ (settingsAt : Nat → AISettings) (proc : AISettings → Nat → Nat → ProcResult)
        (cats : List String) (items : List WorkItem),
      organizeBookmarksBatch settingsAt proc cats (some 0) items = ⟨[], [], 0, 0⟩) ∧
    (∀ (settingsAt : Nat → AISettings) (proc : AISettings → Nat → Nat → ProcResult)
        (cats : List String) (items : List WorkItem) (r0 : List Json),
      2 ≤ (chunksOf (jsNumToNat (jsOrOne (settingsAt 0).batchSize)) items).length →
      (proc (settingsAt 0) 0 0).outcome = .ok r0 →
      organizeBookmarksBatch settingsAt proc cats
          (some ((proc (settingsAt 0) 0 0).dur + 1)) items =
        ⟨r0, [jsNumToNat (jsOrDefault (settingsAt 0).delayBetweenBatches 5000)], 1,
          (proc (settingsAt 0) 0 0).attempts⟩) := by
  refine ⟨fun proc a delayMs rem i t st ha => orgLoop_abort_stop proc a delayMs rem i t st ha,
    ?_, ?_⟩
  · intro settingsAt proc cats items
    cases items with
    | nil => simp [organizeBookmarksBatch]
    | cons x xs =>
      rw [organizeBookmarksBatch_cons]
      exact orgLoop_abort_stop _ 0 _ _ 0 0 _ le_rfl
  · intro settingsAt proc cats items r0 hn hok
    cases items with
    | nil => simp [chunksOf, chunkLoopFuel] at hn
    | cons x xs =>
      rw [organizeBookmarksBatch_cons]
      obtain ⟨m, hm⟩ : ∃ m,
          (chunksOf (jsNumToNat (jsOrOne (settingsAt 0).batchSize)) (x :: xs)).length =
            m + 2 :=
        ⟨(chunksOf (jsNumToNat (jsOrOne (settingsAt 0).batchSize)) (x :: xs)).length - 2,
          by omega⟩
      rw [hm]
      have h0 : jsAborted (some ((proc (settingsAt 0) 0 0).dur + 1)) 0 = false := by
        simp [jsAborted]
      have h1 : jsAborted (some ((proc (settingsAt 0) 0 0).dur + 1))
          (0 + (proc (settingsAt 0) 0 0).dur) = false := by
        simp only [jsAborted, Nat.zero_add]
        exact decide_eq_false (by omega)
      have hsucc : m + 2 = (m + 1) + 1 := rfl
      rw [hsucc, orgLoop_ok_step (fun i t => proc (settingsAt t) i t)
        (some ((proc (settingsAt 0) 0 0).dur + 1))
        (jsNumToNat (jsOrDefault (settingsAt 0).delayBetweenBatches 5000))
        (m + 1) 0 0 ⟨[], [], 0, 0⟩ r0 h0 hok]
      simp only [Nat.succ_ne_zero, if_false, h1, Bool.false_eq_true]
      rw [orgLoop_abort_stop _ _ _ _ _ _ _ (by omega)]
      simp

theorem cancellation_behavior_witness :
    ((2 : Nat) ≤ (chunksOf (jsNumToNat (jsOrOne sampleSettingsG.batchSize)) sampleItems2).length ∧
      (procOkR1 sampleSettingsG 0 0).outcome = .ok [Json.str "r1"]) ∧
    organizeBookmarksBatch (fun _ => sampleSettingsG) procOkR1 []
        (some ((procOkR1 sampleSettingsG 0 0).dur + 1)) sampleItems2 =
      ⟨[Json.str "r1"], [jsNumToNat (jsOrDefault sampleSettingsG.delayBetweenBatches 5000)],
        1, (procOkR1 sampleSettingsG 0 0).attempts⟩ :=
  ⟨⟨by decide, rfl⟩,
   cancellation_behavior.2.2 (fun _ => sampleSettingsG) procOkR1 [] sampleItems2
     [Json.str "r1"] (by decide) rfl⟩

/-- Claim C9 (amended): `batchSize` and `delayBetweenBatches` are read
once, at the start of `organizeBookmarksBatch`, and fixed for the whole
run — two stores agreeing at that initial read produce identical runs no
matter how they differ later — while the provider/credential/model
settings handed to each chunk dispatch are re-read fresh at that chunk's
start, so a mid-run provider change is observed by every subsequent chunk
(here: chunk 1 sees `gemini`, chunk 2 sees the switched-to `ollama`). -/
theorem settings_read_policy :
    (∀ (settingsAt settingsAt' : Nat → AISettings) (p : Nat → Nat → ProcResult)
        (cats : List String) (abortAt : Option Nat) (items : List WorkItem),
      settingsAt 0 = settingsAt' 0 →
      organizeBookmarksBatch settingsAt (fun _ i t => p i t) cats abortAt items =
        organizeBookmarksBatch settingsAt' (fun _ i t => p i t) cats abortAt items) ∧
    (organizeBookmarksBatch (fun t => if t = 0 then sampleSettingsG else sampleSettingsOllama)
        procRecordProvider [] none sampleItems2).results =
      [Json.str "gemini", Json.str "ollama"] := by
  constructor
  · intro settingsAt settingsAt' p cats abortAt items h
    simp only [organizeBookmarksBatch, h]
  · rfl

theorem settings_read_policy_witness :
    ((fun t => if t = 0 then sampleSettingsB2 else sampleSettingsG) 0 =
      (fun _ : Nat => sampleSettingsB2) 0) ∧
    organizeBookmarksBatch (fun t => if t = 0 then sampleSettingsB2 else sampleSettingsG)
        (fun _ i t => procConstOk i t) [] none sampleItems2 =
      organizeBookmarksBatch (fun _ => sampleSettingsB2)
        (fun _ i t => procConstOk i t) [] none sampleItems2 :=
  ⟨rfl,
   settings_read_policy.1 (fun t => if t = 0 then sampleSettingsB2 else sampleSettingsG)
     (fun _ => sampleSettingsB2) procConstOk [] none sampleItems2 rfl⟩

/-- Counterexample to claim C9 as stated: the stored `batchSize` changes
from 2 to 1 after the initial read, yet the run still dispatches 2 chunks
of width 2 (the value cached at start), where the claimed
re-read-per-chunk behaviour (`organizeFreshBatch`, modelled from the
spec's words) would dispatch 3. -/
theorem batchsize_cached_counterexample :
    (organizeBookmarksBatch (fun t => if t = 0 then sampleSettingsB2 else sampleSettingsG)
        (fun _ _ _ => ⟨.ok [], 1, 1⟩) [] none sampleItems4).dispatches = 2 ∧
    (organizeFreshBatch (fun t => if t = 0 then sampleSettingsB2 else sampleSettingsG)
        (fun _ _ _ => ⟨.ok [], 1, 1⟩) none sampleItems4).dispatches = 3 :=
  ⟨rfl, rfl⟩

end AIBookmarks

